import Mathlib

/-! The input-focus state machine of `main.go`.

A shallow embedding of the Bubble Tea program in `src/main.go`: the `model`
struct, the package-level variables, `initialModel`, `Update`, `UpdateAdd`,
`updateAdd`, `UpdateQuery` and `updateInputs`, followed by theorems about
them.

Modelling conventions.

* A `tea.Msg` is a `Msg`: a key event carrying its canonical token
  (`msg.String()`), a cursor blink tick, or any other message.
* Go's `int` is an `Int` kept in the signed 64-bit range by `wrapInt`.
* The package-level variables `keyword`, `location`, `add` and
  `packageInputs` are the record `Globals`, threaded through every function
  that touches them.
* The styled constants (`focusedPrompt`, `focusedSubmitButton`,
  `blurredSubmitButton`) are built by the terminal library from the colour
  profile of the terminal; that rendering is the parameter `paint` of every
  definition that uses them, and theorems hold for every rendering unless
  they name one.
* A Go struct is copied by value and the text of a widget is an immutable
  list of characters. In Go the copies of a widget share the storage of its
  text, so an entry of `packageInputs` describes the committed inputs as they
  are when the entry is appended; what later edits of the live field do to
  the shared storage is outside this embedding.
-/

namespace Inputs

/-! ## Messages and commands -/

/-- A `tea.Msg`. `key k` is a `tea.KeyMsg` whose `String()` is `k`; `blink`
is the cursor blink tick of the text-input widget; `other` is any other
message (for instance the plain string `""` that the commit path hands to
`updateInputs`). -/
inductive Msg where
  | key (k : String)
  | blink
  | other
  deriving DecidableEq, Repr

/-- A `tea.Cmd`: `none` is the nil command, `quit` is `tea.Quit`, `blinkCmd`
is `textinput.Blink` and `batch` is the result of `tea.Batch`. -/
inductive Cmd where
  | none
  | quit
  | blinkCmd
  | batch
  deriving DecidableEq, Repr

/-! ## Machine integers -/

/-- Two's-complement wrap of an integer into the signed 64-bit range of Go's
`int`. -/
def wrapInt (x : Int) : Int :=
  (x + 2 ^ 63) % 2 ^ 64 - 2 ^ 63

/-! ## The text-input widget -/

/-- Modelled from the spec: the text-input widget `textinput.Model` of the
Bubbles library, which `main.go` imports and which is not under `src/`. It is
the spec's Field: `value` is the buffer, `CharLimit` the maximum length
(no limit when it is not positive), `focus` the focus flag; `Prompt`,
`Placeholder` and `TextColor` are the exported fields `main.go` assigns,
`pos` is the cursor position and `blink` the cursor blink state. -/
structure TextInput where
  Prompt : String
  Placeholder : String
  TextColor : String
  CharLimit : Int
  value : List Char
  focus : Bool
  blink : Bool
  pos : Nat
  deriving DecidableEq, Repr

namespace TextInput

/-- Modelled from the spec: the zero value of the widget struct, which the
package-level variables hold before `initialModel` runs. -/
def zero : TextInput :=
  { Prompt := "", Placeholder := "", TextColor := "", CharLimit := 0,
    value := [], focus := false, blink := false, pos := 0 }

/-- Modelled from the spec: `textinput.NewModel()`, an empty, unfocused field
with the default prompt and no length limit. -/
def NewModel : TextInput :=
  { Prompt := "> ", Placeholder := "", TextColor := "", CharLimit := 0,
    value := [], focus := false, blink := true, pos := 0 }

/-- Modelled from the spec: `Value()`, the buffer as a string. -/
def Value (t : TextInput) : String :=
  String.mk t.value

/-- Modelled from the spec: `Focus()` marks the field focused. The library
also shows the cursor, which is the blink flag lowered. -/
def Focus (t : TextInput) : TextInput :=
  { t with focus := true, blink := false }

/-- Modelled from the spec: `Blur()` marks the field unfocused. The library
also hides the cursor, which is the blink flag raised. -/
def Blur (t : TextInput) : TextInput :=
  { t with focus := false, blink := true }

/-- Modelled from the spec: the edit a focused field makes for the key token
`k`. A token of exactly one character is text and is inserted at the cursor
unless the buffer has reached `CharLimit` (InputOverflow: the character is
rejected); `backspace` deletes the character before the cursor; the cursor
keys move the cursor; `ctrl+k` and `ctrl+u` delete after and before the
cursor; every other token is ignored. -/
def editKey (t : TextInput) (k : String) : TextInput :=
  if k = "backspace" then
    if t.value.length > 0 then
      { t with value := t.value.take (t.pos - 1) ++ t.value.drop t.pos,
               pos := t.pos - 1 }
    else t
  else if k = "left" then { t with pos := t.pos - 1 }
  else if k = "right" then
    if t.pos < t.value.length then { t with pos := t.pos + 1 } else t
  else if k = "ctrl+a" then { t with pos := 0 }
  else if k = "ctrl+e" then { t with pos := t.value.length }
  else if k = "ctrl+k" then { t with value := t.value.take t.pos }
  else if k = "ctrl+u" then { t with value := t.value.drop t.pos, pos := 0 }
  else
    match k.data with
    | [c] =>
      if t.CharLimit ≤ 0 ∨ (t.value.length : Int) < t.CharLimit then
        { t with value := t.value.take t.pos ++ c :: t.value.drop t.pos,
                 pos := t.pos + 1 }
      else t
    | _ => t

/-- Modelled from the spec: the widget's `Update`. A field that is not focused
ignores every message (only text inputs with `Focus()` set respond); a focused
field edits its buffer on a key event and toggles the cursor on a blink
tick. -/
def Update (t : TextInput) (msg : Msg) : TextInput × Cmd :=
  if t.focus = false then
    ({ t with blink := true }, Cmd.none)
  else
    match msg with
    | Msg.key k => (editKey t k, Cmd.none)
    | Msg.blink => ({ t with blink := !t.blink }, Cmd.blinkCmd)
    | Msg.other => (t, Cmd.none)

end TextInput

/-! ## Package-level constants and variables -/

/-- Source `focusedTextColor`. -/
def focusedTextColor : String := "205"

/-- The rendering `te.String(s).Foreground(color(c)).String()` of the text `s`
in the colour `c`. `color` is `te.ColorProfile().Color`, so the result
depends on the colour profile of the terminal the program runs in; the
terminal library is not under `src/`, and the rendering is a parameter of
every definition that uses one of the three rendered constants below. -/
abbrev Paint := String → String → String

/-- The rendering under the 256-colour profile: the text wrapped in the
escape sequences that select and reset the foreground colour. -/
def paint256 : Paint := fun s c =>
  "\x1b[38;5;" ++ c ++ "m" ++ s ++ "\x1b[0m"

/-- The rendering under the Ascii profile (a terminal without colour, or an
output that is not a terminal): the text itself. -/
def paintPlain : Paint := fun s _ => s

/-- Source `focusedPrompt`: the highlighted prompt. -/
def focusedPrompt (paint : Paint) : String := paint "> " "205"

/-- Source `blurredPrompt`: the default prompt. -/
def blurredPrompt : String := "> "

/-- Source `focusedSubmitButton`. -/
def focusedSubmitButton (paint : Paint) : String := "[ " ++ paint "Submit" "205" ++ " ]"

/-- Source `blurredSubmitButton`. -/
def blurredSubmitButton (paint : Paint) : String := "[ " ++ paint "Submit" "240" ++ " ]"

/-- The package-level variables of `main.go` that the program assigns:
`keyword`, `location`, `add` and the accumulated list `packageInputs`, each
entry of which is the slice of the two criteria inputs. -/
structure Globals where
  keyword : TextInput
  location : TextInput
  add : TextInput
  packageInputs : List (List TextInput)
  deriving DecidableEq, Repr

/-- The package-level variables at program start: zero-valued widgets and an
empty `packageInputs`. -/
def Globals.init : Globals :=
  { keyword := TextInput.zero, location := TextInput.zero,
    add := TextInput.zero, packageInputs := [] }

/-! ## The model -/

/-- Source `type model struct`. -/
structure model where
  index : Int
  keywordInput : TextInput
  locationInput : TextInput
  addInput : TextInput
  submitButton : String
  submit : Bool
  deriving DecidableEq, Repr

/-- Source `initialModel`: assigns the three package-level widgets and returns
`model{0, keyword, location, add, blurredSubmitButton, false}`. -/
def initialModel (paint : Paint) (g : Globals) : model × Globals :=
  let keyword : TextInput :=
    { TextInput.Focus { TextInput.NewModel with
          Placeholder := "Keyword eg: Web Developer" } with
      Prompt := focusedPrompt paint, TextColor := focusedTextColor, CharLimit := 32 }
  let location : TextInput :=
    { TextInput.NewModel with
      Placeholder := "Location eg: Boulder CO, Salt Lake City UT",
      Prompt := blurredPrompt, CharLimit := 64 }
  let add : TextInput :=
    { TextInput.NewModel with
      Placeholder := "[Y/n]", Prompt := blurredPrompt, CharLimit := 8 }
  ({ index := 0, keywordInput := keyword, locationInput := location,
     addInput := add, submitButton := blurredSubmitButton paint, submit := false },
   { g with keyword := keyword, location := location, add := add })

/-- Source `model.Init`. -/
def model.Init (_m : model) : Cmd := Cmd.blinkCmd

/-- Source `updateAdd`: passes the message to the confirm input. -/
def updateAdd (msg : Msg) (m : model) : model × Cmd :=
  let r := m.addInput.Update msg
  ({ m with addInput := r.1 }, Cmd.batch)

/-- Source `updateInputs`: passes the message to both criteria inputs. -/
def updateInputs (msg : Msg) (m : model) : model × Cmd :=
  let r1 := m.keywordInput.Update msg
  let m1 := { m with keywordInput := r1.1 }
  let r2 := m1.locationInput.Update msg
  ({ m1 with locationInput := r2.1 }, Cmd.batch)

/-- Source `model.UpdateAdd`. In the key switch the case `"ctrl+c"` has an
empty body (Go does not fall through), so it continues to `updateAdd`. -/
def model.UpdateAdd (m : model) (msg : Msg) (g : Globals) :
    model × Cmd × Globals :=
  match msg with
  | Msg.key k =>
    if k = "ctrl+c" then
      let r := updateAdd msg m
      (r.1, r.2, g)
    else if k = "esc" then (m, Cmd.quit, g)
    else if k = "Y" ∨ k = "y" ∨ k = "enter" then (m, Cmd.none, g)
    else
      let r := updateAdd msg m
      (r.1, r.2, g)
  | _ =>
    let r := updateAdd msg m
    (r.1, r.2, g)

/-- The body of the loop `for i := 0; i <= len(input)-1; i++` in
`UpdateQuery` for one `i`: the input at the focus index gets the focused
state, every other input the blurred state. -/
def setFocusState (paint : Paint) (i : Int) (index : Int) (t : TextInput) : TextInput :=
  if i = index then
    { TextInput.Focus t with Prompt := focusedPrompt paint, TextColor := focusedTextColor }
  else
    { TextInput.Blur t with Prompt := blurredPrompt, TextColor := "" }

/-- The branch `case "tab", "shift+tab", "enter", "up", "down"` of
`UpdateQuery`, for the key token `s`. `input` is the two-element slice
`{m.keywordInput, m.locationInput}`, so `len(input)` is `2`. On a commit
(`enter` with the index on the submit slot) the slice itself is appended to
`packageInputs`; the focus loop then writes through the same slice, so the
appended entry holds the inputs as the loop leaves them. The entry and the
live fields `m.keywordInput`, `m.locationInput` are copies of the same two
widgets; here they are independent values (see the conventions at the top of
the file). -/
def cycle (paint : Paint) (m : model) (s : String) (g : Globals) : model × Cmd × Globals :=
  let input0 := m.keywordInput
  let input1 := m.locationInput
  let commit : Bool := decide (s = "enter" ∧ m.index = 2)
  -- m, cmd = updateInputs("", m); initialModel().Init()
  let m1 := if commit then (updateInputs Msg.other m).1 else m
  let g1 := if commit then (initialModel paint g).2 else g
  -- Cycle indexes
  let i1 := if s = "up" ∨ s = "shift+tab" then wrapInt (m1.index - 1)
            else wrapInt (m1.index + 1)
  let i2 := if i1 > 2 then 0 else if i1 < 0 then 2 else i1
  let out0 := setFocusState paint 0 i2 input0
  let out1 := setFocusState paint 1 i2 input1
  let m2 : model :=
    { m1 with index := i2, keywordInput := out0, locationInput := out1,
              submitButton := if i2 = 2 then focusedSubmitButton paint
                              else blurredSubmitButton paint }
  let g2 := if commit then
              { g1 with packageInputs := g.packageInputs ++ [[out0, out1]] }
            else g1
  (m2, Cmd.none, g2)

/-- Source `model.UpdateQuery`. In the key switch the case `"ctrl+c"` has an
empty body, so it continues to `updateInputs`. -/
def model.UpdateQuery (paint : Paint) (m : model) (msg : Msg) (g : Globals) :
    model × Cmd × Globals :=
  match msg with
  | Msg.key s =>
    if s = "ctrl+c" then
      let r := updateInputs msg m
      (r.1, r.2, g)
    else if s = "esc" then (m, Cmd.quit, g)
    else if s = "tab" ∨ s = "shift+tab" ∨ s = "enter" ∨ s = "up" ∨ s = "down" then
      cycle paint m s g
    else
      let r := updateInputs msg m
      (r.1, r.2, g)
  | _ =>
    let r := updateInputs msg m
    (r.1, r.2, g)

/-- The quit test of `Update`: a key event whose token is `q`, `esc` or
`ctrl+c`. -/
def isQuit (msg : Msg) : Bool :=
  match msg with
  | Msg.key k => decide (k = "q" ∨ k = "esc" ∨ k = "ctrl+c")
  | _ => false

/-- Source `model.Update`. -/
def model.Update (paint : Paint) (m : model) (msg : Msg) (g : Globals) :
    model × Cmd × Globals :=
  if isQuit msg then (m, Cmd.quit, g)
  else if m.submit = true then
    model.UpdateAdd { m with submit := false } msg g
  else
    model.UpdateQuery paint m msg g

/-! ## Rendering -/

/-- The loop `for i := 0; i < len(inputs); i++` of `queryView` and
`additionalView`: each rendered input is appended to `s`, followed by a line
break unless it is the last one. -/
def viewLoop (s : String) : List String → String
  | [] => s
  | [x] => s ++ x
  | x :: y :: rest => viewLoop (s ++ x ++ "\n") (y :: rest)

/-- Source `model.queryView`. The widget's own `View()` belongs to the
text-input library and is the parameter `view`. -/
def model.queryView (view : TextInput → String) (m : model) : String :=
  viewLoop "\n" [view m.keywordInput, view m.locationInput]
    ++ ("\n\n" ++ m.submitButton ++ "\n")

/-- Source `model.additionalView`. -/
def model.additionalView (view : TextInput → String) (m : model) : String :=
  viewLoop "Add another search item? [Y/n]" [view m.addInput]
    ++ ("\n\n" ++ m.submitButton ++ "\n")

/-- Source `model.View`. `indent.String` of the reflow library is the
parameter `indent`. -/
def model.View (view : TextInput → String) (indent : String → Nat → String)
    (m : model) : String :=
  let s := if m.submit = true then model.additionalView view m
           else model.queryView view m
  indent ("\n" ++ s ++ "\n\n") 2

/-! ## Running the program -/

/-- A program state: the model together with the package-level variables. -/
abbrev State := model × Globals

/-- One input event handled through `Update`; the command is dropped. -/
def step (paint : Paint) (s : State) (msg : Msg) : State :=
  let r := model.Update paint s.1 msg s.2
  (r.1, r.2.2)

/-- A finite sequence of input events handled one after the other. -/
def run (paint : Paint) (s : State) (msgs : List Msg) : State :=
  msgs.foldl (step paint) s

/-- The state at program start: `initialModel()` run on the initial
package-level variables. -/
def initialState (paint : Paint) : State := initialModel paint Globals.init

/-- The key events that type the characters of `s`, one per character. -/
def typeText (s : String) : List Msg :=
  s.data.map fun c => Msg.key (String.singleton c)

/-! ## Specification-side vocabulary -/

/-- The number of focused positions among the keyword field, the location
field and the submit button: a field is focused when its focus flag is set,
the submit button when `submitButton` is the focused-style button. -/
def focusedCount (paint : Paint) (m : model) : Nat :=
  (if m.keywordInput.focus = true then 1 else 0)
    + (if m.locationInput.focus = true then 1 else 0)
    + (if m.submitButton = focusedSubmitButton paint then 1 else 0)

/-- The focus state of the criteria form is the one derived from the index:
Editing mode, index on one of the three ring positions, and exactly the
position at the index focused. -/
def Coherent (paint : Paint) (m : model) : Prop :=
  m.submit = false ∧ 0 ≤ m.index ∧ m.index ≤ 2 ∧
  m.keywordInput.focus = decide (m.index = 0) ∧
  m.locationInput.focus = decide (m.index = 1) ∧
  m.submitButton = (if m.index = 2 then focusedSubmitButton paint else blurredSubmitButton paint)

/-- The key events of the round-trip scenario up to the commit: type the
keyword, move to the location field, type the location, move to submit. -/
def roundTripKeys : List Msg :=
  typeText "Engineer" ++ [Msg.key "tab"] ++ typeText "Denver CO" ++ [Msg.key "tab"]

/-- A model in ConfirmAdd mode as `initialModel` builds its fields: the
initial model with the submit flag raised. -/
def confirmModel (paint : Paint) : model :=
  { (initialState paint).1 with submit := true }

/-- A model in ConfirmAdd mode whose confirm field holds the text `n`. -/
def confirmModelWithText (paint : Paint) : model :=
  { (confirmModel paint) with
    addInput := { (confirmModel paint).addInput with value := ['n'], pos := 1 } }

/-- The field has the configured limit `n` and its buffer is no longer than
that. -/
def WithinLimit (t : TextInput) (n : Int) : Prop :=
  t.CharLimit = n ∧ (t.value.length : Int) ≤ n

/-- Each of the three fields is within the limit `initialModel` configures
for it: 32 for the keyword, 64 for the location, 8 for the confirm field. -/
def LimitsHold (m : model) : Prop :=
  WithinLimit m.keywordInput 32 ∧ WithinLimit m.locationInput 64 ∧
  WithinLimit m.addInput 8

/-- The field carries the focused state (focus flag, focused prompt,
highlight colour). -/
def FieldFocused (paint : Paint) (t : TextInput) : Prop :=
  t.focus = true ∧ t.Prompt = focusedPrompt paint ∧ t.TextColor = focusedTextColor

/-- The field carries the unfocused state (no focus flag, default prompt, no
highlight). -/
def FieldBlurred (t : TextInput) : Prop :=
  t.focus = false ∧ t.Prompt = blurredPrompt ∧ t.TextColor = ""

/-- Exactly the position at the index is focused: the index is one of the
three ring positions, the keyword field is in the focused state iff the index
is 0 and in the unfocused state otherwise, the location field likewise for
index 1, and the submit button has the focused style iff the index is 2 and
the unfocused style otherwise. -/
def FocusDerived (paint : Paint) (m : model) : Prop :=
  0 ≤ m.index ∧ m.index ≤ 2 ∧
  (FieldFocused paint m.keywordInput ↔ m.index = 0) ∧
  (m.index ≠ 0 → FieldBlurred m.keywordInput) ∧
  (FieldFocused paint m.locationInput ↔ m.index = 1) ∧
  (m.index ≠ 1 → FieldBlurred m.locationInput) ∧
  (m.submitButton = focusedSubmitButton paint ↔ m.index = 2) ∧
  (m.index ≠ 2 → m.submitButton = blurredSubmitButton paint)

/-- Exactly the position at the index is focused, with the button clause
read from the index to the style: the submit button has the focused style
when the index is 2 and the unfocused style otherwise. The field clauses are
those of `FocusDerived`. -/
def FocusAtIndex (paint : Paint) (m : model) : Prop :=
  0 ≤ m.index ∧ m.index ≤ 2 ∧
  (FieldFocused paint m.keywordInput ↔ m.index = 0) ∧
  (m.index ≠ 0 → FieldBlurred m.keywordInput) ∧
  (FieldFocused paint m.locationInput ↔ m.index = 1) ∧
  (m.index ≠ 1 → FieldBlurred m.locationInput) ∧
  (m.index = 2 → m.submitButton = focusedSubmitButton paint) ∧
  (m.index ≠ 2 → m.submitButton = blurredSubmitButton paint)

/-- The field `u` is the field `t` except possibly for its focus flag, prompt
and text colour. -/
def SameUpToFocusStyle (t u : TextInput) : Prop :=
  u = { t with focus := u.focus, Prompt := u.Prompt, TextColor := u.TextColor }

/-- The field `u` is the field `t` except possibly for its focus flag,
prompt, text colour and cursor blink state. -/
def SameUpToFocusStyleAndBlink (t u : TextInput) : Prop :=
  u = { t with focus := u.focus, Prompt := u.Prompt, TextColor := u.TextColor,
               blink := u.blink }

/-- Between the models `m` and `r` only the index, focus flags, prompts,
text colours and the submit-button style may differ: each field of `r` is the
field of `m` up to focus flag, prompt and text colour, and the submit flag is
the same. -/
def OnlyFocusStateChanges (m r : model) : Prop :=
  SameUpToFocusStyle m.keywordInput r.keywordInput ∧
  SameUpToFocusStyle m.locationInput r.locationInput ∧
  SameUpToFocusStyle m.addInput r.addInput ∧
  r.submit = m.submit

/-- Between the models `m` and `r` only the index, the submit-button style
and the focus flag, prompt, text colour and cursor blink state of the keyword
and location fields may differ; the confirm field and the submit flag are the
same. -/
def OnlyFocusStateAndBlinkChange (m r : model) : Prop :=
  SameUpToFocusStyleAndBlink m.keywordInput r.keywordInput ∧
  SameUpToFocusStyleAndBlink m.locationInput r.locationInput ∧
  r.addInput = m.addInput ∧
  r.submit = m.submit

/-- An Editing-mode model whose focus state is inconsistent: the index is out
of range while both fields carry the focus flag and the submit button has the
focused style. -/
def corruptModel (paint : Paint) : model :=
  { (initialState paint).1 with
    index := 7,
    locationInput := TextInput.Focus (initialState paint).1.locationInput,
    submitButton := focusedSubmitButton paint }

/-! ## Helper lemmas -/

set_option maxRecDepth 100000

theorem paint256_buttons_differ :
    focusedSubmitButton paint256 ≠ blurredSubmitButton paint256 := by
  decide

theorem paintPlain_buttons_equal :
    focusedSubmitButton paintPlain = blurredSubmitButton paintPlain := by
  decide

theorem editKey_focus (t : TextInput) (k : String) :
    (TextInput.editKey t k).focus = t.focus := by
  unfold TextInput.editKey
  repeat' split
  all_goals rfl

theorem widget_Update_focus (t : TextInput) (msg : Msg) :
    (t.Update msg).1.focus = t.focus := by
  unfold TextInput.Update
  split
  · simp [*]
  · cases msg <;> simp [editKey_focus]

theorem widget_Update_unfocused_value (t : TextInput) (msg : Msg)
    (h : t.focus = false) : (t.Update msg).1.value = t.value := by
  simp [TextInput.Update, h]

theorem widget_Update_other_value (t : TextInput) :
    (t.Update Msg.other).1.value = t.value := by
  unfold TextInput.Update
  split <;> rfl

theorem setFocusState_value {paint : Paint} (i j : Int) (t : TextInput) :
    (setFocusState paint i j t).value = t.value := by
  unfold setFocusState
  split <;> rfl

theorem setFocusState_focus {paint : Paint} (i j : Int) (t : TextInput) :
    (setFocusState paint i j t).focus = decide (j = i) := by
  unfold setFocusState
  split
  · next h => simp [TextInput.Focus, h]
  · next h => simp [TextInput.Blur, Ne.symm h]

/-- A navigation key is not a quit key, in Editing mode `Update` runs the
cycling branch of `UpdateQuery` on it. -/
theorem Update_nav {paint : Paint} (m : model) (g : Globals) (k : String)
    (hs : m.submit = false)
    (hk : k = "tab" ∨ k = "shift+tab" ∨ k = "enter" ∨ k = "up" ∨ k = "down") :
    model.Update paint m (Msg.key k) g = cycle paint m k g := by
  rcases hk with h | h | h | h | h <;> subst h <;>
    simp [model.Update, isQuit, hs, model.UpdateQuery]

theorem cycle_submit {paint : Paint} (m : model) (g : Globals) (k : String) :
    (cycle paint m k g).1.submit = m.submit := by
  unfold cycle
  simp only
  split <;> simp [updateInputs]

theorem cycle_index {paint : Paint} (m : model) (g : Globals) (k : String) :
    (cycle paint m k g).1.index =
      (let i1 := if k = "up" ∨ k = "shift+tab" then wrapInt (m.index - 1)
                 else wrapInt (m.index + 1)
       if i1 > 2 then 0 else if i1 < 0 then 2 else i1) := by
  by_cases hc : k = "enter" ∧ m.index = 2 <;> simp [cycle, hc, updateInputs]

theorem wrapInt_small (x : Int) (h1 : -1 ≤ x) (h2 : x ≤ 3) : wrapInt x = x := by
  unfold wrapInt
  omega

/-- The cycling branch re-derives the whole focus state from the new
index. -/
theorem cycle_coherent {paint : Paint} (m : model) (g : Globals) (k : String)
    (hs : m.submit = false) : Coherent paint (cycle paint m k g).1 := by
  have key : ∀ i1 : Int,
      (0 : Int) ≤ (if i1 > 2 then 0 else if i1 < 0 then 2 else i1) ∧
      (if i1 > 2 then 0 else if i1 < 0 then 2 else i1) ≤ 2 := by
    intro i1
    split_ifs <;> omega
  have hsub : (cycle paint m k g).1.submit = false := by
    rw [cycle_submit]
    exact hs
  refine ⟨hsub, ?_, ?_, ?_, ?_, ?_⟩
  · rw [cycle_index]
    exact (key _).1
  · rw [cycle_index]
    exact (key _).2
  · simp only [cycle, setFocusState_focus]
  · simp only [cycle, setFocusState_focus]
  · simp only [cycle]

theorem updateInputs_coherent {paint : Paint} (m : model) (msg : Msg) (h : Coherent paint m) :
    Coherent paint (updateInputs msg m).1 := by
  obtain ⟨a, b, c, d, e, f⟩ := h
  refine ⟨a, b, c, ?_, ?_, f⟩
  · simpa [updateInputs, widget_Update_focus] using d
  · simpa [updateInputs, widget_Update_focus] using e

/-- One event handled through `Update` keeps the focus state coherent. -/
theorem step_coherent {paint : Paint} (s : State) (msg : Msg) (h : Coherent paint s.1) :
    Coherent paint (step paint s msg).1 := by
  have hs : s.1.submit = false := h.1
  unfold step model.Update
  simp only
  split
  · exact h
  · simp only [hs, Bool.false_eq_true, if_false]
    unfold model.UpdateQuery
    split
    · split_ifs
      · exact updateInputs_coherent _ _ h
      · exact h
      · exact cycle_coherent _ _ _ hs
      · exact updateInputs_coherent _ _ h
    · exact updateInputs_coherent _ _ h

theorem initial_coherent {paint : Paint} : Coherent paint (initialState paint).1 := by
  refine ⟨rfl, le_refl _, ?_, rfl, rfl, rfl⟩
  show (0 : Int) ≤ 2
  decide

/-- Every state reached from a coherent one is coherent. -/
theorem run_coherent (paint : Paint) (msgs : List Msg) :
    ∀ s : State, Coherent paint s.1 → Coherent paint (run paint s msgs).1 := by
  induction msgs with
  | nil => intro s h; exact h
  | cons msg rest ih =>
    intro s h
    exact ih (step paint s msg) (step_coherent s msg h)

theorem coherent_focusedCount {paint : Paint} (m : model) (h : Coherent paint m)
    (hne : focusedSubmitButton paint ≠ blurredSubmitButton paint) :
    focusedCount paint m ≤ 1 := by
  obtain ⟨_, h0, h2, d, e, f⟩ := h
  unfold focusedCount
  rw [d, e, f]
  have hcases : m.index = 0 ∨ m.index = 1 ∨ m.index = 2 := by omega
  rcases hcases with hi | hi | hi <;> simp [hi, hne.symm]

theorem setFocusState_focused {paint : Paint} (i : Int) (t : TextInput) :
    FieldFocused paint (setFocusState paint i i t) := by
  simp [setFocusState, FieldFocused, TextInput.Focus]

theorem setFocusState_blurred {paint : Paint} (i j : Int) (t : TextInput) (h : i ≠ j) :
    FieldBlurred (setFocusState paint i j t) := by
  simp [setFocusState, FieldBlurred, TextInput.Blur, h]

theorem focused_not_blurred {paint : Paint} (t : TextInput) (h : FieldBlurred t) :
    ¬ FieldFocused paint t := by
  intro hf
  have h1 := h.1
  have h2 := hf.1
  simp [h1] at h2

theorem cycle_keywordInput {paint : Paint} (m : model) (g : Globals) (k : String) :
    (cycle paint m k g).1.keywordInput = setFocusState paint 0 (cycle paint m k g).1.index m.keywordInput := by
  simp only [cycle]

theorem cycle_locationInput {paint : Paint} (m : model) (g : Globals) (k : String) :
    (cycle paint m k g).1.locationInput = setFocusState paint 1 (cycle paint m k g).1.index m.locationInput := by
  simp only [cycle]

theorem cycle_submitButton {paint : Paint} (m : model) (g : Globals) (k : String) :
    (cycle paint m k g).1.submitButton =
      if (cycle paint m k g).1.index = 2 then focusedSubmitButton paint else blurredSubmitButton paint := by
  simp only [cycle]

theorem cycle_addInput {paint : Paint} (m : model) (g : Globals) (k : String) :
    (cycle paint m k g).1.addInput = m.addInput := by
  by_cases hc : k = "enter" ∧ m.index = 2 <;> simp [cycle, hc, updateInputs]

theorem cycle_index_range {paint : Paint} (m : model) (g : Globals) (k : String) :
    0 ≤ (cycle paint m k g).1.index ∧ (cycle paint m k g).1.index ≤ 2 := by
  rw [cycle_index]
  simp only
  split_ifs <;> omega

/-- The cycling branch leaves exactly the position at the new index
focused, whatever the focus state was before and whatever the rendering. -/
theorem cycle_focusAtIndex {paint : Paint} (m : model) (g : Globals) (k : String) :
    FocusAtIndex paint (cycle paint m k g).1 := by
  obtain ⟨h0, h2⟩ := @cycle_index_range paint m g k
  refine ⟨h0, h2, ?_, ?_, ?_, ?_, ?_, ?_⟩
  · rw [cycle_keywordInput]
    constructor
    · intro hf
      by_contra hj
      exact focused_not_blurred _ (setFocusState_blurred 0 _ _ (Ne.symm hj)) hf
    · intro hj
      rw [hj]
      exact setFocusState_focused 0 _
  · intro hj
    rw [cycle_keywordInput]
    exact setFocusState_blurred 0 _ _ (Ne.symm hj)
  · rw [cycle_locationInput]
    constructor
    · intro hf
      by_contra hj
      exact focused_not_blurred _ (setFocusState_blurred 1 _ _ (Ne.symm hj)) hf
    · intro hj
      rw [hj]
      exact setFocusState_focused 1 _
  · intro hj
    rw [cycle_locationInput]
    exact setFocusState_blurred 1 _ _ (Ne.symm hj)
  · intro hj
    rw [cycle_submitButton, if_pos hj]
  · intro hj
    rw [cycle_submitButton, if_neg hj]

/-- When the two button renderings differ, the button has the focused style
only on the submit slot. -/
theorem focusDerived_of_atIndex {paint : Paint} (m : model)
    (hne : focusedSubmitButton paint ≠ blurredSubmitButton paint)
    (h : FocusAtIndex paint m) : FocusDerived paint m := by
  obtain ⟨h0, h2, a, b, c, d, e, f⟩ := h
  refine ⟨h0, h2, a, b, c, d, ⟨?_, e⟩, f⟩
  intro hf
  by_contra hj
  exact hne (hf.symm.trans (f hj))

/-- What the focus loop leaves of a field: everything but the focus flag,
the prompt, the text colour and the cursor blink state. -/
theorem setFocusState_frame {paint : Paint} (i j : Int) (t : TextInput) :
    SameUpToFocusStyleAndBlink t (setFocusState paint i j t) := by
  unfold SameUpToFocusStyleAndBlink setFocusState
  split <;> rfl

theorem editKey_limit (t : TextInput) (k : String) (n : Int) (hn : 0 < n)
    (h : WithinLimit t n) : WithinLimit (TextInput.editKey t k) n := by
  obtain ⟨hc, hl⟩ := h
  unfold TextInput.editKey
  split_ifs
  all_goals first
    | exact ⟨hc, hl⟩
    | (refine ⟨hc, ?_⟩
       simp only [List.length_append, List.length_take, List.length_drop,
         List.length_cons]
       omega)
    | (split
       · refine ⟨hc, ?_⟩
         simp only [List.length_append, List.length_take, List.length_drop,
           List.length_cons]
         omega
       · exact ⟨hc, hl⟩)
    | (split <;> exact ⟨hc, hl⟩)

theorem widget_Update_limit (t : TextInput) (msg : Msg) (n : Int) (hn : 0 < n)
    (h : WithinLimit t n) : WithinLimit (t.Update msg).1 n := by
  unfold TextInput.Update
  split
  · exact h
  · cases msg with
    | key k => exact editKey_limit t k n hn h
    | blink => exact h
    | other => exact h

theorem setFocusState_limit {paint : Paint} (i j : Int) (t : TextInput) (n : Int)
    (h : WithinLimit t n) : WithinLimit (setFocusState paint i j t) n := by
  unfold setFocusState
  split <;> exact h

theorem updateInputs_limits (m : model) (msg : Msg) (h : LimitsHold m) :
    LimitsHold (updateInputs msg m).1 :=
  ⟨widget_Update_limit _ msg 32 (by decide) h.1,
   widget_Update_limit _ msg 64 (by decide) h.2.1, h.2.2⟩

theorem updateAdd_limits (m : model) (msg : Msg) (h : LimitsHold m) :
    LimitsHold (updateAdd msg m).1 :=
  ⟨h.1, h.2.1, widget_Update_limit _ msg 8 (by decide) h.2.2⟩

theorem cycle_limits {paint : Paint} (m : model) (g : Globals) (k : String) (h : LimitsHold m) :
    LimitsHold (cycle paint m k g).1 := by
  refine ⟨?_, ?_, ?_⟩
  · rw [cycle_keywordInput]
    exact setFocusState_limit _ _ _ _ h.1
  · rw [cycle_locationInput]
    exact setFocusState_limit _ _ _ _ h.2.1
  · rw [cycle_addInput]
    exact h.2.2

/-- One event handled through `Update`, in either mode, keeps every field
within its limit. -/
theorem step_limits {paint : Paint} (s : State) (msg : Msg) (h : LimitsHold s.1) :
    LimitsHold (step paint s msg).1 := by
  unfold step model.Update
  simp only
  split
  · exact h
  · split
    · have h1 : LimitsHold { s.1 with submit := false } := h
      unfold model.UpdateAdd
      split
      · split_ifs
        · exact updateAdd_limits _ _ h1
        · exact h1
        · exact h1
        · exact updateAdd_limits _ _ h1
      · exact updateAdd_limits _ _ h1
    · unfold model.UpdateQuery
      split
      · split_ifs
        · exact updateInputs_limits _ _ h
        · exact h
        · exact cycle_limits _ _ _ h
        · exact updateInputs_limits _ _ h
      · exact updateInputs_limits _ _ h

theorem initial_limits {paint : Paint} : LimitsHold (initialState paint).1 := by
  refine ⟨⟨rfl, ?_⟩, ⟨rfl, ?_⟩, ⟨rfl, ?_⟩⟩
  · show ((0 : Nat) : Int) ≤ 32
    decide
  · show ((0 : Nat) : Int) ≤ 64
    decide
  · show ((0 : Nat) : Int) ≤ 8
    decide

theorem run_limits (paint : Paint) (msgs : List Msg) :
    ∀ s : State, LimitsHold s.1 → LimitsHold (run paint s msgs).1 := by
  induction msgs with
  | nil => intro s h; exact h
  | cons msg rest ih =>
    intro s h
    exact ih (step paint s msg) (step_limits s msg h)

/-! ## Theorems -/

/-- C1: in Editing mode with the focus index on the submit slot, handling
`enter` through `Update` leaves `packageInputs` equal to the list before
followed by exactly one new record, whose keyword and location values are the
values the two fields held at the keystroke; the list grows by one, never by
zero or two. -/
theorem commit_appends_exactly_one_record (paint : Paint) (m : model) (g : Globals)
    (hs : m.submit = false) (hi : m.index = 2) :
    ∃ kw loc : TextInput,
      (model.Update paint m (Msg.key "enter") g).2.2.packageInputs
        = g.packageInputs ++ [[kw, loc]] ∧
      kw.Value = m.keywordInput.Value ∧ loc.Value = m.locationInput.Value ∧
      (model.Update paint m (Msg.key "enter") g).2.2.packageInputs.length
        = g.packageInputs.length + 1 := by
  refine ⟨setFocusState paint 0 0 m.keywordInput, setFocusState paint 1 0 m.locationInput, ?_⟩
  rw [Update_nav m g "enter" hs (by simp)]
  simp [cycle, hi, updateInputs, wrapInt, TextInput.Value, setFocusState_value]

/-- Witness for C1: the model reached by the round-trip keys commits the
record `Engineer`, `Denver CO`. -/
theorem commit_appends_exactly_one_record_witness :
    ∃ kw loc : TextInput,
      (model.Update paint256 (run paint256 (initialState paint256) roundTripKeys).1 (Msg.key "enter")
          (run paint256 (initialState paint256) roundTripKeys).2).2.2.packageInputs
        = (run paint256 (initialState paint256) roundTripKeys).2.packageInputs ++ [[kw, loc]] ∧
      kw.Value = (run paint256 (initialState paint256) roundTripKeys).1.keywordInput.Value ∧
      loc.Value = (run paint256 (initialState paint256) roundTripKeys).1.locationInput.Value ∧
      (model.Update paint256 (run paint256 (initialState paint256) roundTripKeys).1 (Msg.key "enter")
          (run paint256 (initialState paint256) roundTripKeys).2).2.2.packageInputs.length
        = (run paint256 (initialState paint256) roundTripKeys).2.packageInputs.length + 1 :=
  commit_appends_exactly_one_record paint256 (run paint256 (initialState paint256) roundTripKeys).1
    (run paint256 (initialState paint256) roundTripKeys).2 (by decide) (by decide)

/-- C2: the round-trip scenario run on the code. After typing `Engineer`,
`tab`, `Denver CO`, `tab` the model is in Editing mode on the submit slot;
handling `enter` then records the pair, but the submit flag is still false
and the keyword and location buffers still hold the typed text. -/
theorem commit_round_trip_on_code :
    (run paint256 (initialState paint256) roundTripKeys).1.submit = false ∧
    (run paint256 (initialState paint256) roundTripKeys).1.index = 2 ∧
    (run paint256 (initialState paint256) (roundTripKeys ++ [Msg.key "enter"])).2.packageInputs.map
        (List.map TextInput.Value) = [["Engineer", "Denver CO"]] ∧
    (run paint256 (initialState paint256) (roundTripKeys ++ [Msg.key "enter"])).1.submit = false ∧
    (run paint256 (initialState paint256) (roundTripKeys ++ [Msg.key "enter"])).1.keywordInput.Value
        = "Engineer" ∧
    (run paint256 (initialState paint256) (roundTripKeys ++ [Msg.key "enter"])).1.locationInput.Value
        = "Denver CO" := by
  decide

/-- C3, counterexample: from the initial model (Editing mode, index 0) four
`tab` keys in a row leave the focus index at 1, not at its starting value. -/
theorem ring_closure_four_counterexample :
    (initialState paint256).1.submit = false ∧ 0 ≤ (initialState paint256).1.index ∧
    (initialState paint256).1.index ≤ 2 ∧
    (run paint256 (initialState paint256) (List.replicate 4 (Msg.key "tab"))).1.index
      ≠ (initialState paint256).1.index := by
  decide

/-- C3, amended: the ring of the criteria form has `len(fields)+1 = 3`
positions; in Editing mode with the focus index in `[0, 2]`, handling `tab`
or `down` exactly three times in a row returns the index to its starting
value. -/
theorem ring_closure_three (paint : Paint) (m : model) (g : Globals) (k : String)
    (hs : m.submit = false) (h0 : 0 ≤ m.index) (h2 : m.index ≤ 2)
    (hk : k = "tab" ∨ k = "down") :
    (run paint (m, g) [Msg.key k, Msg.key k, Msg.key k]).1.index = m.index := by
  have hstep : ∀ s : State, s.1.submit = false → 0 ≤ s.1.index → s.1.index ≤ 2 →
      (step paint s (Msg.key k)).1.submit = false ∧
      (step paint s (Msg.key k)).1.index = (s.1.index + 1) % 3 := by
    intro s h h0 h2
    have hnav : k = "tab" ∨ k = "shift+tab" ∨ k = "enter" ∨ k = "up" ∨ k = "down" := by
      rcases hk with h | h <;> simp [h]
    have hne : ¬ (k = "up" ∨ k = "shift+tab") := by
      rcases hk with h | h <;> subst h <;> decide
    unfold step
    simp only [Update_nav s.1 s.2 k h hnav, cycle_submit, cycle_index, h, hne,
      if_false, wrapInt_small (s.1.index + 1) (by omega) (by omega)]
    refine ⟨trivial, ?_⟩
    split_ifs <;> omega
  obtain ⟨a1, b1⟩ := hstep (m, g) hs h0 h2
  obtain ⟨a2, b2⟩ := hstep _ a1 (by omega) (by omega)
  obtain ⟨_, b3⟩ := hstep _ a2 (by omega) (by omega)
  simp only [run, List.foldl]
  simp only at b1
  omega

/-- Witness for C3 (amended): three `tab` keys from the initial model. -/
theorem ring_closure_three_witness :
    (run paint256 ((initialState paint256).1, (initialState paint256).2)
      [Msg.key "tab", Msg.key "tab", Msg.key "tab"]).1.index = (initialState paint256).1.index :=
  ring_closure_three paint256 (initialState paint256).1 (initialState paint256).2 "tab" (by decide) (by decide)
    (by decide) (by decide)

/-- C5: in Editing mode with the focus index `i` in `[0, 2]`, handling `tab`,
`down` or `enter` sets the index to `(i+1) mod 3` and handling `up` or
`shift+tab` sets it to `(i+2) mod 3` (this holds whether or not the key
commits); from the initial model one `shift+tab` moves the index to the
submit slot, 2. -/
theorem ring_wrap_arithmetic (paint : Paint) (m : model) (g : Globals) (k : String)
    (hs : m.submit = false) (h0 : 0 ≤ m.index) (h2 : m.index ≤ 2) :
    ((k = "tab" ∨ k = "down" ∨ k = "enter") →
        (model.Update paint m (Msg.key k) g).1.index = (m.index + 1) % 3) ∧
    ((k = "up" ∨ k = "shift+tab") →
        (model.Update paint m (Msg.key k) g).1.index = (m.index + 2) % 3) ∧
    (model.Update paint (initialState paint).1 (Msg.key "shift+tab") (initialState paint).2).1.index = 2 := by
  refine ⟨?_, ?_, rfl⟩
  · intro hk
    have hnav : k = "tab" ∨ k = "shift+tab" ∨ k = "enter" ∨ k = "up" ∨ k = "down" := by
      rcases hk with h | h | h <;> simp [h]
    have hne : ¬ (k = "up" ∨ k = "shift+tab") := by
      rcases hk with h | h | h <;> subst h <;> decide
    simp only [Update_nav m g k hs hnav, cycle_index, hne, if_false,
      wrapInt_small (m.index + 1) (by omega) (by omega)]
    split_ifs <;> omega
  · intro hk
    have hnav : k = "tab" ∨ k = "shift+tab" ∨ k = "enter" ∨ k = "up" ∨ k = "down" := by
      rcases hk with h | h <;> simp [h]
    simp only [Update_nav m g k hs hnav, cycle_index, hk, if_true,
      wrapInt_small (m.index - 1) (by omega) (by omega)]
    split_ifs <;> omega

/-- Witness for C5: the initial model and the key `shift+tab`. -/
theorem ring_wrap_arithmetic_witness :
    (model.Update paint256 (initialState paint256).1 (Msg.key "shift+tab") (initialState paint256).2).1.index
      = ((initialState paint256).1.index + 2) % 3 :=
  (ring_wrap_arithmetic paint256 (initialState paint256).1 (initialState paint256).2 "shift+tab" (by decide)
    (by decide) (by decide)).2.1 (by decide)

/-- C6: for every model, in either mode and with any field contents, and
every key among `q`, `esc`, `ctrl+c`, `Update` returns the quit command, the
model it was given and the package-level variables (so the accumulated
record list) unchanged. -/
theorem quit_leaves_everything_unchanged (paint : Paint) (m : model) (g : Globals) (k : String)
    (hk : k = "q" ∨ k = "esc" ∨ k = "ctrl+c") :
    model.Update paint m (Msg.key k) g = (m, Cmd.quit, g) := by
  simp [model.Update, isQuit, hk]

/-- Witness for C6: `esc` on the model of the round-trip scenario, with
unsaved text in both fields. -/
theorem quit_leaves_everything_unchanged_witness :
    model.Update paint256 (run paint256 (initialState paint256) roundTripKeys).1 (Msg.key "esc")
        (run paint256 (initialState paint256) roundTripKeys).2
      = ((run paint256 (initialState paint256) roundTripKeys).1, Cmd.quit,
         (run paint256 (initialState paint256) roundTripKeys).2) :=
  quit_leaves_everything_unchanged paint256 (run paint256 (initialState paint256) roundTripKeys).1
    (run paint256 (initialState paint256) roundTripKeys).2 "esc" (by decide)

/-- C7: the code run on a ConfirmAdd model with an empty confirm buffer. The
initial model with the submit flag raised is in ConfirmAdd mode and its
confirm buffer is empty; after `n` through `Update` the confirm buffer is
still empty (the confirm field is never focused, so it ignores the key) and
the submit flag is false (`Update` lowers it before it calls `UpdateAdd`), so
the result is not "buffer `n`, still ConfirmAdd". -/
theorem confirm_n_on_code :
    (confirmModel paint256).submit = true ∧ (confirmModel paint256).addInput.Value = "" ∧
    (confirmModel paint256).addInput.focus = false ∧
    (model.Update paint256 (confirmModel paint256) (Msg.key "n") Globals.init).1.addInput.Value = "" ∧
    (model.Update paint256 (confirmModel paint256) (Msg.key "n") Globals.init).1.submit = false ∧
    ¬ ((model.Update paint256 (confirmModel paint256) (Msg.key "n") Globals.init).1.addInput.Value = "n" ∧
       (model.Update paint256 (confirmModel paint256) (Msg.key "n") Globals.init).1.submit = true) := by
  decide

/-- C9: in Editing mode with the focus index off the submit slot, handling
`enter` gives exactly the result of handling `tab` (the same model, command
and package-level variables), and `packageInputs` is unchanged. -/
theorem enter_off_submit_is_tab (paint : Paint) (m : model) (g : Globals)
    (hs : m.submit = false) (hi : m.index ≠ 2) :
    model.Update paint m (Msg.key "enter") g = model.Update paint m (Msg.key "tab") g ∧
    (model.Update paint m (Msg.key "enter") g).2.2.packageInputs = g.packageInputs := by
  rw [Update_nav m g "enter" hs (by simp), Update_nav m g "tab" hs (by simp)]
  simp [cycle, hi]

/-- Witness for C9: `enter` on the initial model, whose index is 0. -/
theorem enter_off_submit_is_tab_witness :
    model.Update paint256 (initialState paint256).1 (Msg.key "enter") (initialState paint256).2
      = model.Update paint256 (initialState paint256).1 (Msg.key "tab") (initialState paint256).2 ∧
    (model.Update paint256 (initialState paint256).1 (Msg.key "enter") (initialState paint256).2).2.2.packageInputs
      = (initialState paint256).2.packageInputs :=
  enter_off_submit_is_tab paint256 (initialState paint256).1 (initialState paint256).2 (by decide) (by decide)

/-- C4, counterexample: under the Ascii colour profile the focused and the
unfocused submit button are the same string, so after one `tab` from the
initial model the location field is focused and the submit button is "the
focused-style button" as well: two positions count as focused. -/
theorem single_focus_plain_counterexample :
    focusedSubmitButton paintPlain = blurredSubmitButton paintPlain ∧
    focusedCount paintPlain
      (run paintPlain (initialState paintPlain) [Msg.key "tab"]).1 = 2 ∧
    ¬ (focusedCount paintPlain
      (run paintPlain (initialState paintPlain) [Msg.key "tab"]).1 ≤ 1) := by
  decide

/-- C4, amended: single-focus invariant. Under every colour rendering that
makes the focused and the unfocused submit button different strings, after
every finite sequence of input events handled through `Update` from the
initial model at most one of the keyword field, the location field and the
submit button is focused. -/
theorem single_focus_invariant (paint : Paint) (msgs : List Msg)
    (hne : focusedSubmitButton paint ≠ blurredSubmitButton paint) :
    focusedCount paint (run paint (initialState paint) msgs).1 ≤ 1 :=
  coherent_focusedCount _ (run_coherent paint msgs (initialState paint) initial_coherent) hne

/-- Witness for C4 (amended): the 256-colour rendering and the round-trip
keys. -/
theorem single_focus_invariant_witness :
    focusedSubmitButton paint256 ≠ blurredSubmitButton paint256 ∧
    focusedCount paint256 (run paint256 (initialState paint256) roundTripKeys).1 ≤ 1 :=
  ⟨by decide, single_focus_invariant paint256 roundTripKeys (by decide)⟩

/-- C8: after every finite sequence of input events handled through `Update`
from the initial model, the focus index is between 0 and 2, the submit
slot. -/
theorem focus_index_in_range (paint : Paint) (msgs : List Msg) :
    0 ≤ (run paint (initialState paint) msgs).1.index ∧ (run paint (initialState paint) msgs).1.index ≤ 2 :=
  ⟨(run_coherent paint msgs (initialState paint) initial_coherent).2.1,
   (run_coherent paint msgs (initialState paint) initial_coherent).2.2.1⟩

/-- C11: in Editing mode with the focus index on the submit slot, handling
`enter` leaves the index at 0, the keyword field focused with the focused
prompt, the location field unfocused with the default prompt, and the submit
button in its unfocused style. -/
theorem commit_resets_focus (paint : Paint) (m : model) (g : Globals)
    (hs : m.submit = false) (hi : m.index = 2) :
    (model.Update paint m (Msg.key "enter") g).1.index = 0 ∧
    (model.Update paint m (Msg.key "enter") g).1.keywordInput.focus = true ∧
    (model.Update paint m (Msg.key "enter") g).1.keywordInput.Prompt = focusedPrompt paint ∧
    (model.Update paint m (Msg.key "enter") g).1.locationInput.focus = false ∧
    (model.Update paint m (Msg.key "enter") g).1.locationInput.Prompt = blurredPrompt ∧
    (model.Update paint m (Msg.key "enter") g).1.submitButton = blurredSubmitButton paint := by
  rw [Update_nav m g "enter" hs (by simp)]
  have hidx : (cycle paint m "enter" g).1.index = 0 := by
    rw [cycle_index]
    simp [hi, wrapInt]
  have hkw : FieldFocused paint (setFocusState paint 0 0 m.keywordInput) :=
    setFocusState_focused 0 m.keywordInput
  have hloc : FieldBlurred (setFocusState paint 1 0 m.locationInput) :=
    setFocusState_blurred 1 0 m.locationInput (by decide)
  refine ⟨hidx, ?_, ?_, ?_, ?_, ?_⟩
  · rw [cycle_keywordInput, hidx]
    exact hkw.1
  · rw [cycle_keywordInput, hidx]
    exact hkw.2.1
  · rw [cycle_locationInput, hidx]
    exact hloc.1
  · rw [cycle_locationInput, hidx]
    exact hloc.2.1
  · rw [cycle_submitButton, hidx]
    simp

/-- Witness for C11: the commit at the end of the round-trip scenario. -/
theorem commit_resets_focus_witness :
    (model.Update paint256 (run paint256 (initialState paint256) roundTripKeys).1 (Msg.key "enter")
      (run paint256 (initialState paint256) roundTripKeys).2).1.index = 0 ∧
    (model.Update paint256 (run paint256 (initialState paint256) roundTripKeys).1 (Msg.key "enter")
      (run paint256 (initialState paint256) roundTripKeys).2).1.keywordInput.focus = true ∧
    (model.Update paint256 (run paint256 (initialState paint256) roundTripKeys).1 (Msg.key "enter")
      (run paint256 (initialState paint256) roundTripKeys).2).1.keywordInput.Prompt = focusedPrompt paint256 ∧
    (model.Update paint256 (run paint256 (initialState paint256) roundTripKeys).1 (Msg.key "enter")
      (run paint256 (initialState paint256) roundTripKeys).2).1.locationInput.focus = false ∧
    (model.Update paint256 (run paint256 (initialState paint256) roundTripKeys).1 (Msg.key "enter")
      (run paint256 (initialState paint256) roundTripKeys).2).1.locationInput.Prompt = blurredPrompt ∧
    (model.Update paint256 (run paint256 (initialState paint256) roundTripKeys).1 (Msg.key "enter")
      (run paint256 (initialState paint256) roundTripKeys).2).1.submitButton = blurredSubmitButton paint256 :=
  commit_resets_focus paint256 (run paint256 (initialState paint256) roundTripKeys).1
    (run paint256 (initialState paint256) roundTripKeys).2 (by decide) (by decide)

/-- C12, counterexample: a model in ConfirmAdd mode whose confirm field holds
`n`; after `y` the model is in Editing mode but the confirm buffer is still
`n`, not empty. -/
theorem confirm_accept_counterexample :
    (confirmModelWithText paint256).submit = true ∧
    ¬ ((model.Update paint256 (confirmModelWithText paint256) (Msg.key "y") Globals.init).1.submit = false ∧
       (model.Update paint256 (confirmModelWithText paint256) (Msg.key "y") Globals.init).1.addInput.Value = "") ∧
    (model.Update paint256 (confirmModelWithText paint256) (Msg.key "y") Globals.init).1.addInput.Value = "n" := by
  decide

/-- C12, amended: for every model in ConfirmAdd mode, with any confirm-field
content, and every key among `Y`, `y`, `enter`, `Update` returns the model
with the submit flag lowered (Editing mode) and nothing else changed, with no
command; the confirm buffer is the one the model had, so it is empty exactly
when it was empty before. -/
theorem confirm_accept_returns_to_editing (paint : Paint) (m : model) (g : Globals) (k : String)
    (hs : m.submit = true) (hk : k = "Y" ∨ k = "y" ∨ k = "enter") :
    model.Update paint m (Msg.key k) g = ({ m with submit := false }, Cmd.none, g) ∧
    (model.Update paint m (Msg.key k) g).1.submit = false ∧
    (model.Update paint m (Msg.key k) g).1.addInput.Value = m.addInput.Value := by
  have h : model.Update paint m (Msg.key k) g = ({ m with submit := false }, Cmd.none, g) := by
    rcases hk with h | h | h <;> subst h <;>
      simp [model.Update, isQuit, hs, model.UpdateAdd]
  rw [h]
  exact ⟨rfl, rfl, rfl⟩

/-- Witness for C12 (amended): `y` on the ConfirmAdd model whose confirm
field holds `n`. -/
theorem confirm_accept_returns_to_editing_witness :
    model.Update paint256 (confirmModelWithText paint256) (Msg.key "y") Globals.init
      = ({ (confirmModelWithText paint256) with submit := false }, Cmd.none, Globals.init) ∧
    (model.Update paint256 (confirmModelWithText paint256) (Msg.key "y") Globals.init).1.submit = false ∧
    (model.Update paint256 (confirmModelWithText paint256) (Msg.key "y") Globals.init).1.addInput.Value
      = (confirmModelWithText paint256).addInput.Value :=
  confirm_accept_returns_to_editing paint256 (confirmModelWithText paint256) Globals.init "y"
    (by decide) (by decide)

/-- C13: in a state reached from the initial model by input events that is
in Editing mode with the focus index on the submit slot, handling a key that
is neither a quit key nor a navigation key leaves the keyword and location
buffers, the focus index and the record list unchanged. -/
theorem text_dropped_on_submit (paint : Paint) (msgs : List Msg) (k : String)
    (hs : (run paint (initialState paint) msgs).1.submit = false)
    (hi : (run paint (initialState paint) msgs).1.index = 2)
    (hq : ¬ (k = "q" ∨ k = "esc" ∨ k = "ctrl+c"))
    (hn : ¬ (k = "tab" ∨ k = "shift+tab" ∨ k = "enter" ∨ k = "up" ∨ k = "down")) :
    (model.Update paint (run paint (initialState paint) msgs).1 (Msg.key k)
        (run paint (initialState paint) msgs).2).1.keywordInput.Value
      = (run paint (initialState paint) msgs).1.keywordInput.Value ∧
    (model.Update paint (run paint (initialState paint) msgs).1 (Msg.key k)
        (run paint (initialState paint) msgs).2).1.locationInput.Value
      = (run paint (initialState paint) msgs).1.locationInput.Value ∧
    (model.Update paint (run paint (initialState paint) msgs).1 (Msg.key k)
        (run paint (initialState paint) msgs).2).1.index
      = (run paint (initialState paint) msgs).1.index ∧
    (model.Update paint (run paint (initialState paint) msgs).1 (Msg.key k)
        (run paint (initialState paint) msgs).2).2.2.packageInputs
      = (run paint (initialState paint) msgs).2.packageInputs := by
  obtain ⟨_, _, _, hkw, hloc, _⟩ := run_coherent paint msgs (initialState paint) initial_coherent
  rw [hi] at hkw hloc
  have hkw2 : (run paint (initialState paint) msgs).1.keywordInput.focus = false := by simpa using hkw
  have hloc2 : (run paint (initialState paint) msgs).1.locationInput.focus = false := by simpa using hloc
  have hcc : ¬ k = "ctrl+c" := fun h => hq (Or.inr (Or.inr h))
  have hesc : ¬ k = "esc" := fun h => hq (Or.inr (Or.inl h))
  have hupd : model.Update paint (run paint (initialState paint) msgs).1 (Msg.key k) (run paint (initialState paint) msgs).2
      = ((updateInputs (Msg.key k) (run paint (initialState paint) msgs).1).1,
         (updateInputs (Msg.key k) (run paint (initialState paint) msgs).1).2,
         (run paint (initialState paint) msgs).2) := by
    have hqq : ¬ k = "q" := fun h => hq (Or.inl h)
    simp [model.Update, isQuit, hqq, hesc, hcc, hs, model.UpdateQuery, hn]
  rw [hupd]
  refine ⟨?_, ?_, rfl, rfl⟩
  · simp [updateInputs, TextInput.Value, widget_Update_unfocused_value _ _ hkw2]
  · simp [updateInputs, TextInput.Value, widget_Update_unfocused_value _ _ hloc2]

/-- Witness for C13: the letter `x` typed on the submit slot after the
round-trip keys. -/
theorem text_dropped_on_submit_witness :
    (model.Update paint256 (run paint256 (initialState paint256) roundTripKeys).1 (Msg.key "x")
        (run paint256 (initialState paint256) roundTripKeys).2).1.keywordInput.Value
      = (run paint256 (initialState paint256) roundTripKeys).1.keywordInput.Value ∧
    (model.Update paint256 (run paint256 (initialState paint256) roundTripKeys).1 (Msg.key "x")
        (run paint256 (initialState paint256) roundTripKeys).2).1.locationInput.Value
      = (run paint256 (initialState paint256) roundTripKeys).1.locationInput.Value ∧
    (model.Update paint256 (run paint256 (initialState paint256) roundTripKeys).1 (Msg.key "x")
        (run paint256 (initialState paint256) roundTripKeys).2).1.index
      = (run paint256 (initialState paint256) roundTripKeys).1.index ∧
    (model.Update paint256 (run paint256 (initialState paint256) roundTripKeys).1 (Msg.key "x")
        (run paint256 (initialState paint256) roundTripKeys).2).2.2.packageInputs
      = (run paint256 (initialState paint256) roundTripKeys).2.packageInputs :=
  text_dropped_on_submit paint256 roundTripKeys "x" (by decide) (by decide) (by decide)
    (by decide)

/-- C14: after every finite sequence of input events handled through `Update`
from the initial model, the keyword buffer has at most 32 characters, the
location buffer at most 64 and the confirm buffer at most 8. -/
theorem buffers_within_limit (paint : Paint) (msgs : List Msg) :
    (run paint (initialState paint) msgs).1.keywordInput.Value.length ≤ 32 ∧
    (run paint (initialState paint) msgs).1.locationInput.Value.length ≤ 64 ∧
    (run paint (initialState paint) msgs).1.addInput.Value.length ≤ 8 := by
  obtain ⟨⟨_, h1⟩, ⟨_, h2⟩, ⟨_, h3⟩⟩ := run_limits paint msgs (initialState paint) initial_limits
  simp only [TextInput.Value, String.length]
  omega

/-- C15, counterexample: under the Ascii colour profile, `tab` on the initial
model (Editing mode) gives index 1 while the submit button equals the
focused-style button, so "the submit button has the focused style iff the
index is 2" fails. -/
theorem focus_rederived_plain_counterexample :
    (initialState paintPlain).1.submit = false ∧
    (model.Update paintPlain (initialState paintPlain).1 (Msg.key "tab")
      (initialState paintPlain).2).1.index = 1 ∧
    (model.Update paintPlain (initialState paintPlain).1 (Msg.key "tab")
      (initialState paintPlain).2).1.submitButton = focusedSubmitButton paintPlain ∧
    ¬ FocusDerived paintPlain
      (model.Update paintPlain (initialState paintPlain).1 (Msg.key "tab")
        (initialState paintPlain).2).1 := by
  refine ⟨by decide, by decide, by decide, ?_⟩
  intro h
  have h2 := h.2.2.2.2.2.2.1.mp (by decide)
  exact absurd h2 (by decide)

/-- C15, amended: full re-derivation of focus. For every Editing-mode model,
whatever its focus flags, prompts, button style and index were, after
handling a navigation key the new index is in `[0, 2]`, the keyword field has
the focus flag, focused prompt and highlight colour iff the index is 0, the
location field iff it is 1, every other field is unfocused with the default
prompt and no highlight, and the submit button has the focused style when the
index is 2 and the unfocused style otherwise. Under every colour rendering
that makes the two button styles different strings, the button has the
focused style iff the index is 2. -/
theorem focus_rederived (paint : Paint) (m : model) (g : Globals) (k : String)
    (hs : m.submit = false)
    (hk : k = "tab" ∨ k = "shift+tab" ∨ k = "enter" ∨ k = "up" ∨ k = "down") :
    FocusAtIndex paint (model.Update paint m (Msg.key k) g).1 ∧
    (focusedSubmitButton paint ≠ blurredSubmitButton paint →
      FocusDerived paint (model.Update paint m (Msg.key k) g).1) := by
  rw [Update_nav m g k hs hk]
  exact ⟨cycle_focusAtIndex m g k,
    fun hne => focusDerived_of_atIndex _ hne (cycle_focusAtIndex m g k)⟩

/-- Witness for C15 (amended): `up` on a model with an out-of-range index and
three positions marked focused, under the 256-colour rendering. -/
theorem focus_rederived_witness :
    (corruptModel paint256).submit = false ∧
    focusedSubmitButton paint256 ≠ blurredSubmitButton paint256 ∧
    FocusAtIndex paint256
      (model.Update paint256 (corruptModel paint256) (Msg.key "up") Globals.init).1 ∧
    FocusDerived paint256
      (model.Update paint256 (corruptModel paint256) (Msg.key "up") Globals.init).1 :=
  ⟨by decide, by decide,
   (focus_rederived paint256 (corruptModel paint256) Globals.init "up"
      (by decide) (by decide)).1,
   (focus_rederived paint256 (corruptModel paint256) Globals.init "up"
      (by decide) (by decide)).2 (by decide)⟩

/-- C16: `initialModel` returns a model in Editing mode with focus index 0,
the keyword field focused with the focused prompt, the location and confirm
fields unfocused with the default prompt, all three buffers empty, and the
submit button in its unfocused style. -/
theorem initial_state (paint : Paint) (g : Globals) :
    (initialModel paint g).1.submit = false ∧
    (initialModel paint g).1.index = 0 ∧
    (initialModel paint g).1.keywordInput.focus = true ∧
    (initialModel paint g).1.keywordInput.Prompt = focusedPrompt paint ∧
    (initialModel paint g).1.locationInput.focus = false ∧
    (initialModel paint g).1.locationInput.Prompt = blurredPrompt ∧
    (initialModel paint g).1.addInput.focus = false ∧
    (initialModel paint g).1.addInput.Prompt = blurredPrompt ∧
    (initialModel paint g).1.keywordInput.Value = "" ∧
    (initialModel paint g).1.locationInput.Value = "" ∧
    (initialModel paint g).1.addInput.Value = "" ∧
    (initialModel paint g).1.submitButton = blurredSubmitButton paint := by
  refine ⟨rfl, rfl, rfl, rfl, rfl, rfl, rfl, rfl, rfl, rfl, rfl, rfl⟩

/-- C17, counterexample: `tab` on the initial model (Editing mode). The
buffers are unchanged, but the keyword field does not differ from the one
before in focus flag, prompt and text colour only: `Blur()` also raises its
cursor blink flag, so the frame "only index, focus flags, prompts, text
colour and button style may change" fails. -/
theorem navigation_frame_counterexample :
    (initialState paint256).1.submit = false ∧
    (initialState paint256).1.keywordInput.blink = false ∧
    (model.Update paint256 (initialState paint256).1 (Msg.key "tab")
      (initialState paint256).2).1.keywordInput.blink = true ∧
    ¬ OnlyFocusStateChanges (initialState paint256).1
      (model.Update paint256 (initialState paint256).1 (Msg.key "tab")
        (initialState paint256).2).1 := by
  refine ⟨by decide, by decide, by decide, ?_⟩
  intro h
  have h1 := congrArg TextInput.blink h.1
  exact absurd h1 (by decide)

/-- C17, amended: navigation never edits text. For every Editing-mode model
and every navigation key, `enter` on the submit slot included, the keyword,
location and confirm buffers of the resulting model are those of the input
model; between the two models only the index, the submit-button style and the
focus flag, prompt, text colour and cursor blink state of the keyword and
location fields may differ (cursor position, placeholder and limit of each
field, the whole confirm field and the submit flag are unchanged). -/
theorem navigation_never_edits_text (paint : Paint) (m : model) (g : Globals) (k : String)
    (hs : m.submit = false)
    (hk : k = "tab" ∨ k = "shift+tab" ∨ k = "enter" ∨ k = "up" ∨ k = "down") :
    (model.Update paint m (Msg.key k) g).1.keywordInput.Value = m.keywordInput.Value ∧
    (model.Update paint m (Msg.key k) g).1.locationInput.Value = m.locationInput.Value ∧
    (model.Update paint m (Msg.key k) g).1.addInput.Value = m.addInput.Value ∧
    OnlyFocusStateAndBlinkChange m (model.Update paint m (Msg.key k) g).1 := by
  rw [Update_nav m g k hs hk]
  refine ⟨?_, ?_, ?_, ?_, ?_, ?_, ?_⟩
  · rw [cycle_keywordInput]
    simp [TextInput.Value, setFocusState_value]
  · rw [cycle_locationInput]
    simp [TextInput.Value, setFocusState_value]
  · rw [cycle_addInput]
  · rw [cycle_keywordInput]
    exact setFocusState_frame _ _ _
  · rw [cycle_locationInput]
    exact setFocusState_frame _ _ _
  · exact cycle_addInput m g k
  · exact cycle_submit m g k

/-- Witness for C17 (amended): the committing `enter` at the end of the
round-trip scenario. -/
theorem navigation_never_edits_text_witness :
    (model.Update paint256 (run paint256 (initialState paint256) roundTripKeys).1
        (Msg.key "enter")
        (run paint256 (initialState paint256) roundTripKeys).2).1.keywordInput.Value
      = (run paint256 (initialState paint256) roundTripKeys).1.keywordInput.Value ∧
    (model.Update paint256 (run paint256 (initialState paint256) roundTripKeys).1
        (Msg.key "enter")
        (run paint256 (initialState paint256) roundTripKeys).2).1.locationInput.Value
      = (run paint256 (initialState paint256) roundTripKeys).1.locationInput.Value ∧
    (model.Update paint256 (run paint256 (initialState paint256) roundTripKeys).1
        (Msg.key "enter")
        (run paint256 (initialState paint256) roundTripKeys).2).1.addInput.Value
      = (run paint256 (initialState paint256) roundTripKeys).1.addInput.Value ∧
    OnlyFocusStateAndBlinkChange (run paint256 (initialState paint256) roundTripKeys).1
      (model.Update paint256 (run paint256 (initialState paint256) roundTripKeys).1
        (Msg.key "enter")
        (run paint256 (initialState paint256) roundTripKeys).2).1 :=
  navigation_never_edits_text paint256
    (run paint256 (initialState paint256) roundTripKeys).1
    (run paint256 (initialState paint256) roundTripKeys).2 "enter" (by decide) (by decide)

/-- C18: the mode flag is never raised. After every finite sequence of input
events handled through `Update` from the initial model the submit flag is
false; so on every further message `Update` either quits or runs
`UpdateQuery`, never `UpdateAdd`, and `View` renders `queryView`, never
`additionalView`. -/
theorem mode_flag_never_raised (paint : Paint) (msgs : List Msg) :
    (run paint (initialState paint) msgs).1.submit = false ∧
    (∀ msg : Msg,
      model.Update paint (run paint (initialState paint) msgs).1 msg (run paint (initialState paint) msgs).2 =
        if isQuit msg = true then
          ((run paint (initialState paint) msgs).1, Cmd.quit, (run paint (initialState paint) msgs).2)
        else
          model.UpdateQuery paint (run paint (initialState paint) msgs).1 msg (run paint (initialState paint) msgs).2) ∧
    (∀ (view : TextInput → String) (indent : String → Nat → String),
      model.View view indent (run paint (initialState paint) msgs).1 =
        indent ("\n" ++ model.queryView view (run paint (initialState paint) msgs).1 ++ "\n\n") 2) := by
  have hs : (run paint (initialState paint) msgs).1.submit = false :=
    (run_coherent paint msgs (initialState paint) initial_coherent).1
  refine ⟨hs, ?_, ?_⟩
  · intro msg
    simp [model.Update, hs]
  · intro view indent
    simp [model.View, hs]

end Inputs
